import Mathlib

/-!
Shallow embedding of the task orchestration engine of the crawler
repository (source files `src/task_manager.py`, `src/crawler_runner.py`,
`src/storage.py`).

Conventions of the embedding:

* Python `int` is modelled by `ℤ` (arbitrary precision in Python).
* Python `datetime` values are modelled abstractly by a `ℕ` timestamp;
  `datetime.isoformat` is injective and `datetime.fromisoformat` inverts it,
  which the model captures by serialising a timestamp to the distinguished
  `Value.dt` constructor (an ISO-8601 formatted string), while `Value.str`
  stands for every string that is not in ISO format.  `strftime` log
  timestamps are modelled by `toString` of the abstract time.
* Python dicts that serialise tasks are modelled as association lists
  `List (String × Value)` over a small JSON-like `Value` type.
* `TaskProgress.percentage` divides two Python ints with `/`, which is
  IEEE-754 binary64 floating point arithmetic; the model makes that
  arithmetic explicit through `roundPQ`, an exact integer implementation of
  round-to-nearest, ties-to-even binary64 rounding (valid for nonzero
  values in the normal range, which covers every value arising here;
  overflow and subnormals are not modelled).
* Event payloads are elided: an event is its address (per-task or global)
  together with its `type` tag, since that is all the verified properties
  inspect.
-/

namespace GeekTask

/-! ### TaskStatus (`task_manager.py`, class TaskStatus) -/

inductive TaskStatus where
  | pending
  | running
  | paused
  | completed
  | failed
  | cancelled
deriving DecidableEq, Repr

/-- The string value of a status member (`TaskStatus.PENDING = "pending"`, ...). -/
def TaskStatus.value : TaskStatus → String
  | .pending => "pending"
  | .running => "running"
  | .paused => "paused"
  | .completed => "completed"
  | .failed => "failed"
  | .cancelled => "cancelled"

/-- Enum lookup `TaskStatus(s)`: `some` member on a recognised value string,
`none` otherwise (Python raises `ValueError` then). -/
def TaskStatus.ofValue : String → Option TaskStatus
  | "pending" => some .pending
  | "running" => some .running
  | "paused" => some .paused
  | "completed" => some .completed
  | "failed" => some .failed
  | "cancelled" => some .cancelled
  | _ => none

/-! ### Exact model of binary64 arithmetic

`TaskProgress.percentage` computes `int((current / total) * 100)` where
`current / total` is Python float (binary64) division and `* 100` a float
product.  The model represents each intermediate float exactly as a dyadic
rational `mantissa * 2 ^ exponent` with a 53-bit mantissa and performs
IEEE-754 round-to-nearest, ties-to-even, in exact integer arithmetic
(valid for nonzero values in the normal range, which covers every value
arising here; overflow and subnormals are not modelled).  The model was
validated against CPython on the inputs used below. -/

/-- `2 ^ e` over `ℚ` for an integer exponent (used only in specifications
relating the dyadic representation to exact rationals). -/
def pow2 (e : ℤ) : ℚ :=
  (2 : ℚ) ^ e

/-- Number of binary digits of `n` (`0` for `0`), via an explicit fuel so
that the kernel can evaluate it. -/
def bitlenAux : ℕ → ℕ → ℕ
  | 0, _ => 0
  | fuel + 1, n => if n = 0 then 0 else bitlenAux fuel (n / 2) + 1

def bitlen (n : ℕ) : ℕ :=
  bitlenAux n n

/-- Round `n / d` (with `d ≥ 1`) to the nearest natural number, ties to
even. -/
def roundNearEven (n d : ℕ) : ℕ :=
  let f := n / d
  let r := n % d
  if 2 * r < d then f
  else if d < 2 * r then f + 1
  else if f % 2 = 0 then f else f + 1

/-- Binary64 rounding of the positive rational `p / q` (`p, q ≥ 1`):
returns `(m, e)` with `2 ^ 52 ≤ m ≤ 2 ^ 53` such that `m * 2 ^ e` is the
nearest (ties-to-even) 53-bit dyadic rational to `p / q`. -/
def roundPQ (p q : ℕ) : ℕ × ℤ :=
  let e0 : ℤ := (bitlen p : ℤ) - (bitlen q : ℤ) - 53
  let n : ℕ := if 0 ≤ e0 then p else p * 2 ^ (-e0).toNat
  let d : ℕ := if 0 ≤ e0 then q * 2 ^ e0.toNat else q
  if 2 ^ 53 * d ≤ n then (roundNearEven n (d * 2), e0 + 1)
  else (roundNearEven n d, e0)

/-- Floor of `m * 2 ^ e` for a natural mantissa (truncation of a
nonnegative dyadic value). -/
def shiftTrunc (m : ℕ) (e : ℤ) : ℕ :=
  if 0 ≤ e then m * 2 ^ e.toNat else m / 2 ^ (-e).toNat

/-! ### TaskProgress (`task_manager.py`, class TaskProgress) -/

structure TaskProgress where
  current : ℤ := 0
  total : ℤ := 0
  current_item : String := ""
deriving DecidableEq, Repr

/-- `TaskProgress.percentage`: `0` when `total == 0`, otherwise
`int((current / total) * 100)` evaluated in binary64 floating point:
round `current / total` to binary64, multiply by `100` and round again,
then truncate toward zero (`int()`). -/
def TaskProgress.percentage (p : TaskProgress) : ℤ :=
  if p.total = 0 then 0
  else if p.current = 0 then 0
  else
    let neg : Bool := decide (p.current < 0) != decide (p.total < 0)
    let d1 := roundPQ p.current.natAbs p.total.natAbs
    let d2 := roundPQ (d1.1 * 100) 1
    let mag : ℕ := shiftTrunc d2.1 (d1.2 + d2.2)
    if neg then -(mag : ℤ) else (mag : ℤ)

/-! ### Serialised values

A JSON-like value type for the dictionaries produced by `to_dict` and
consumed by `from_dict` / the storage layer.  `Value.dt n` stands for the
ISO-8601 string of the abstract timestamp `n`; `Value.str` stands for any
other string. -/

inductive Value where
  | str (s : String)
  | int (n : ℤ)
  | bool (b : Bool)
  | null
  | list (vs : List Value)
  | dict (kvs : List (String × Value))
  | dt (n : ℕ)

/-- Coerce a value to a string; fields annotated `str` in the dataclass are
read through this (non-string values never occur in records written by
`to_dict`). -/
def Value.asString : Value → String
  | .str s => s
  | _ => ""

/-- Coerce a value to a Python int (fields annotated `int`). -/
def Value.asInt : Value → ℤ
  | .int n => n
  | _ => 0

/-- Coerce a value to a bool (fields annotated `bool`). -/
def Value.asBool : Value → Bool
  | .bool b => b
  | _ => true

/-- Coerce a value to a list of strings (the `logs` field). -/
def Value.asStrList : Value → List String
  | .list vs => vs.map Value.asString
  | _ => []

/-- Whether a value is a dict (an object with a `.get` method). -/
def Value.isDict : Value → Bool
  | .dict _ => true
  | _ => false

/-- Python dict lookup (association-list model; keys are unique in every
dict built by this code). -/
def getA {α : Type} : List (String × α) → String → Option α
  | [], _ => none
  | (k, v) :: rest, key => if k = key then some v else getA rest key

/-- Python `data.get(key, default)`. -/
def getD (data : List (String × Value)) (key : String) (default : Value) : Value :=
  (getA data key).getD default

/-! ### CrawlTask (`task_manager.py`, class CrawlTask) -/

structure CrawlTask where
  id : String
  url : String
  status : TaskStatus := .pending
  course_title : String := ""
  course_id : String := ""
  output_dir : String := ""
  progress : TaskProgress := {}
  created_at : ℕ := 0
  started_at : Option ℕ := none
  completed_at : Option ℕ := none
  error_message : String := ""
  logs : List String := []
  headless : Bool := true
  download_images : Bool := true
  download_audio : Bool := true
  download_video : Bool := true
deriving DecidableEq, Repr

/-- Serialise an optional timestamp: `isoformat()` string or `None`. -/
def serOpt : Option ℕ → Value
  | some n => .dt n
  | none => .null

/-- `CrawlTask.to_dict`: field order and contents as in the source; note
`logs[-50:]` keeps only the most recent 50 log lines, and `percentage` is
included inside `progress` as a derived field. -/
def CrawlTask.to_dict (t : CrawlTask) : List (String × Value) :=
  [ ("id", .str t.id),
    ("url", .str t.url),
    ("status", .str t.status.value),
    ("course_title", .str t.course_title),
    ("course_id", .str t.course_id),
    ("output_dir", .str t.output_dir),
    ("progress", .dict
      [ ("current", .int t.progress.current),
        ("total", .int t.progress.total),
        ("percentage", .int t.progress.percentage),
        ("current_item", .str t.progress.current_item) ]),
    ("created_at", .dt t.created_at),
    ("started_at", serOpt t.started_at),
    ("completed_at", serOpt t.completed_at),
    ("error_message", .str t.error_message),
    ("logs", .list ((t.logs.drop (t.logs.length - 50)).map .str)),
    ("headless", .bool t.headless),
    ("download_images", .bool t.download_images),
    ("download_audio", .bool t.download_audio),
    ("download_video", .bool t.download_video) ]

/-- Errors `CrawlTask.from_dict` can raise.  `_load_from_storage` catches
only the first two (`except (KeyError, ValueError)`); an
`AttributeError` — raised by `progress_data.get(...)` when the
`"progress"` key holds a non-dict value — propagates out of
`_load_from_storage` and aborts startup. -/
inductive LoadErr where
  | keyError
  | valueError
  | attributeError
deriving DecidableEq, Repr

instance {ε α : Type} [DecidableEq ε] [DecidableEq α] : DecidableEq (Except ε α) := fun a b =>
  match a, b with
  | .ok x, .ok y => if h : x = y then .isTrue (by simp [h]) else .isFalse (by simp [h])
  | .error x, .error y => if h : x = y then .isTrue (by simp [h]) else .isFalse (by simp [h])
  | .ok _, .error _ => .isFalse (by simp)
  | .error _, .ok _ => .isFalse (by simp)

/-- The nested helper `parse_datetime` of `from_dict`: `None`, the empty
string and every falsy value give `None`; a string that is not ISO formatted
raises inside `fromisoformat` and is caught, giving `None`; a well-formed
ISO string gives the timestamp. -/
def parse_datetime : Value → Option ℕ
  | .dt n => some n
  | _ => none

/-- `TaskStatus(data.get("status", "pending"))`: a recognised value string
yields the member, anything else raises `ValueError` (verified for the
Python version in use even for unhashable values, which the enum scans). -/
def statusParse (v : Value) : Except LoadErr TaskStatus :=
  match v with
  | .str s =>
    match TaskStatus.ofValue s with
    | some st => .ok st
    | none => .error .valueError
  | _ => .error .valueError

/-- `CrawlTask.from_dict`: the progress sub-record is read first
(`data.get("progress", {})` then three `.get` calls, which raise
`AttributeError` when the stored `"progress"` value is not a dict);
then `data["id"]` and `data["url"]` raise `KeyError` when absent (in
that evaluation order) and the status lookup can raise `ValueError`;
every other field falls back to its default via `.get`.  `now` abstracts
`datetime.now()`, used when `created_at` fails to parse. -/
def CrawlTask.from_dict (now : ℕ) (data : List (String × Value)) :
    Except LoadErr CrawlTask :=
  match getD data "progress" (.dict []) with
  | .dict progress_data =>
    let progress : TaskProgress :=
      { current := (getD progress_data "current" (.int 0)).asInt,
        total := (getD progress_data "total" (.int 0)).asInt,
        current_item := (getD progress_data "current_item" (.str "")).asString }
    match getA data "id" with
    | none => .error .keyError
    | some vid =>
      match getA data "url" with
      | none => .error .keyError
      | some vurl =>
        match statusParse (getD data "status" (.str "pending")) with
        | .error e => .error e
        | .ok status =>
          .ok
          { id := vid.asString,
            url := vurl.asString,
            status := status,
            course_title := (getD data "course_title" (.str "")).asString,
            course_id := (getD data "course_id" (.str "")).asString,
            output_dir := (getD data "output_dir" (.str "")).asString,
            progress := progress,
            created_at := (parse_datetime (getD data "created_at" .null)).getD now,
            started_at := parse_datetime (getD data "started_at" .null),
            completed_at := parse_datetime (getD data "completed_at" .null),
            error_message := (getD data "error_message" (.str "")).asString,
            logs := (getD data "logs" (.list [])).asStrList,
            headless := (getD data "headless" (.bool true)).asBool,
            download_images := (getD data "download_images" (.bool true)).asBool,
            download_audio := (getD data "download_audio" (.bool true)).asBool,
            download_video := (getD data "download_video" (.bool true)).asBool }
  | _ => .error .attributeError

/-! ### Events

An event is its address (one per-task stream per id, plus the global
stream) together with its `type` tag; payloads (task snapshots, progress
dicts, messages) are elided since no verified property inspects them. -/

inductive Event where
  | task (tid : String) (etype : String)
  | global (etype : String)
deriving DecidableEq, Repr

/-! ### TaskManager state (`task_manager.py`, class TaskManager)

The mutable attributes of the singleton `TaskManager`, with `asyncio`
primitives replaced by their observable state: an `asyncio.Event` is its
boolean `is_set` flag, the per-task `asyncio.Task` handles are the set of
ids with a live runner invocation, and a call to `.cancel()` on such a
handle is recorded in `interrupts`.  `store` mirrors the persisted
`tasks.json` contents (rewritten wholesale by `_save_to_storage`), and
`events` is the ordered sequence of published events.  `autoDeleteScheduled`
records the ids for which `_schedule_auto_delete` has been spawned. -/

structure ManagerState where
  tasks : List (String × CrawlTask) := []
  queue : List String := []
  pauseFlags : List (String × Bool) := []
  cancelFlags : List (String × Bool) := []
  runningTasks : List String := []
  interrupts : List String := []
  store : List (List (String × Value)) := []
  events : List Event := []
  autoDeleteScheduled : List String := []

/-- Python dict assignment `m[k] = v`: replace the entry if the key is
present, append it otherwise. -/
def updAssoc {α : Type} : List (String × α) → String → α → List (String × α)
  | [], k, v => [(k, v)]
  | (k1, v1) :: rest, k, v =>
    if k1 = k then (k1, v) :: rest else (k1, v1) :: updAssoc rest k v

/-- Python `del m[k]` / `m.pop(k, None)`. -/
def delAssoc {α : Type} (m : List (String × α)) (k : String) : List (String × α) :=
  m.filter (fun p => p.1 ≠ k)

/-- `_save_to_storage`: dump every task through `to_dict` and overwrite the
backing store wholesale. -/
def saveToStorage (st : ManagerState) : ManagerState :=
  { st with store := st.tasks.map (fun p => p.2.to_dict) }

/-- `_notify_task(task_id, event)`: push to every subscriber of the id;
modelled as appending the event to the published sequence. -/
def notifyTask (st : ManagerState) (tid etype : String) : ManagerState :=
  { st with events := st.events ++ [.task tid etype] }

/-- `_notify_global(event)`. -/
def notifyGlobal (st : ManagerState) (etype : String) : ManagerState :=
  { st with events := st.events ++ [.global etype] }

/-- Replace the record of task `tid` (mutation of the shared task object
in Python). -/
def updTask (st : ManagerState) (tid : String) (t : CrawlTask) : ManagerState :=
  { st with tasks := updAssoc st.tasks tid t }

/-- The status of task `tid`, if the task exists. -/
def statusOf (st : ManagerState) (tid : String) : Option TaskStatus :=
  (getA st.tasks tid).map CrawlTask.status

/-- `[{timestamp}] {message}` log lines; `strftime("%H:%M:%S")` is
abstracted to the decimal rendering of the abstract time. -/
def logEntry (now : ℕ) (msg : String) : String :=
  "[" ++ toString now ++ "] " ++ msg

/-- `TaskManager.cancel_task`: `pending` tasks become `cancelled`
immediately (persist, publish on both streams, return `True`); for a
`running` task the cancel flag is set (if allocated) and the live runner
invocation is interrupted (if registered), returning `True` without
touching the status; every other case returns `False` unchanged. -/
def cancel_task (st : ManagerState) (tid : String) : ManagerState × Bool :=
  match getA st.tasks tid with
  | none => (st, false)
  | some t =>
    if t.status = .pending then
      let st := updTask st tid { t with status := .cancelled }
      let st := saveToStorage st
      let st := notifyTask st tid "cancelled"
      let st := notifyGlobal st "task_cancelled"
      (st, true)
    else if t.status = .running then
      let st :=
        if (getA st.cancelFlags tid).isSome then
          { st with cancelFlags := updAssoc st.cancelFlags tid true }
        else st
      let st :=
        if tid ∈ st.runningTasks then
          { st with interrupts := st.interrupts ++ [tid] }
        else st
      (st, true)
    else (st, false)

/-- `TaskManager.pause_task`: `pending` tasks become `paused`; a `running`
task has its pause flag cleared and its status set to `paused`
immediately (persist, publish); anything else returns `False` unchanged. -/
def pause_task (st : ManagerState) (tid : String) : ManagerState × Bool :=
  match getA st.tasks tid with
  | none => (st, false)
  | some t =>
    if t.status = .pending then
      let st := updTask st tid { t with status := .paused }
      let st := saveToStorage st
      let st := notifyTask st tid "paused"
      let st := notifyGlobal st "task_paused"
      (st, true)
    else if t.status = .running then
      let st :=
        if (getA st.pauseFlags tid).isSome then
          { st with pauseFlags := updAssoc st.pauseFlags tid false }
        else st
      let st := updTask st tid { t with status := .paused }
      let st := saveToStorage st
      let st := notifyTask st tid "paused"
      let st := notifyGlobal st "task_paused"
      (st, true)
    else (st, false)

/-- `TaskManager.retry_task`: only `failed` or `cancelled` tasks can be
retried; the task returns to `pending` with its error and run timestamps
cleared, a retry log line appended, is persisted, re-enqueued and the
retry is published. -/
def retry_task (st : ManagerState) (tid : String) (now : ℕ) : ManagerState × Bool :=
  match getA st.tasks tid with
  | none => (st, false)
  | some t =>
    if t.status = .failed ∨ t.status = .cancelled then
      let st := updTask st tid
        { t with
          status := .pending,
          error_message := "",
          started_at := none,
          completed_at := none,
          logs := t.logs ++ [logEntry now "任务重试"] }
      let st := saveToStorage st
      let st := { st with queue := st.queue ++ [tid] }
      let st := notifyTask st tid "retrying"
      let st := notifyGlobal st "task_retrying"
      (st, true)
    else (st, false)

/-- `TaskManager.update_task_progress`: unknown ids are ignored; provided
fields overwrite the progress record and a `progress` event is published
(no persistence). -/
def update_task_progress (st : ManagerState) (tid : String)
    (current total : Option ℤ) (current_item : Option String) : ManagerState :=
  match getA st.tasks tid with
  | none => st
  | some t =>
    let st := updTask st tid
      { t with progress :=
        { current := current.getD t.progress.current,
          total := total.getD t.progress.total,
          current_item := current_item.getD t.progress.current_item } }
    notifyTask st tid "progress"

/-- `TaskManager.add_task_log`: unknown ids are ignored; otherwise a
timestamped line is appended to the full in-memory log and published. -/
def add_task_log (st : ManagerState) (tid : String) (msg : String) (now : ℕ) :
    ManagerState :=
  match getA st.tasks tid with
  | none => st
  | some t =>
    let st := updTask st tid { t with logs := t.logs ++ [logEntry now msg] }
    notifyTask st tid "log"

/-- `TaskManager.set_task_course_info`: unknown ids are ignored; otherwise
the course metadata is set and published on both streams. -/
def set_task_course_info (st : ManagerState) (tid : String)
    (course_id course_title : String) : ManagerState :=
  match getA st.tasks tid with
  | none => st
  | some t =>
    let st := updTask st tid { t with course_id := course_id, course_title := course_title }
    let st := notifyTask st tid "course_info"
    notifyGlobal st "task_updated"

/-- `_cleanup_task_events`: drop the per-task control state. -/
def cleanupTaskEvents (st : ManagerState) (tid : String) : ManagerState :=
  { st with
    pauseFlags := delAssoc st.pauseFlags tid,
    cancelFlags := delAssoc st.cancelFlags tid,
    runningTasks := st.runningTasks.filter (fun x => x ≠ tid) }

/-- The distinguishable ways a Runner invocation can end, as seen by the
`try` block of `_worker_loop`: normal return; the `TaskPaused` exception;
`asyncio.CancelledError` (the invocation was forcibly interrupted);
the `TaskCancelled` exception raised by `check_task_state` in
`crawler_runner.py` when the cancel flag is observed (note that
`TaskCancelled` subclasses `Exception`, not `asyncio.CancelledError`);
or any other exception with message `msg`. -/
inductive RunnerOutcome where
  | normal
  | taskPaused
  | interrupted
  | taskCancelled
  | error (msg : String)
deriving DecidableEq, Repr

/-- The failure handler of `_worker_loop` (`except Exception as e`):
status `failed`, record the message, stamp `completed_at`, persist, log,
publish `failed` on both streams. -/
def workerFail (st : ManagerState) (tid : String) (t : CrawlTask)
    (msg : String) (now : ℕ) : ManagerState :=
  let st := updTask st tid
    { t with status := .failed, error_message := msg, completed_at := some now }
  let st := saveToStorage st
  let st := add_task_log st tid ("Error: " ++ msg) now
  let st := notifyTask st tid "failed"
  notifyGlobal st "task_failed"

/-- The supervision of one Runner invocation by `_worker_loop`: the task
was dequeued (so it exists and was set `running`), the Runner ran and
ended with `outcome`; this models the `try/except/finally` dispatch that
follows `await runner_task`.  `TaskCancelled` is not caught by name
anywhere, so it lands in the generic `except Exception` handler with
message `str(TaskCancelled()) = ""`. -/
def workerHandleOutcome (st : ManagerState) (tid : String)
    (outcome : RunnerOutcome) (now : ℕ) : ManagerState :=
  cleanupTaskEvents
    (match getA st.tasks tid with
     | none => st
     | some t =>
       match outcome with
       | .normal =>
         if t.status = .paused then st
         else
           let st := updTask st tid { t with status := .completed, completed_at := some now }
           let st := saveToStorage st
           let st := notifyTask st tid "completed"
           let st := notifyGlobal st "task_completed"
           { st with autoDeleteScheduled := st.autoDeleteScheduled ++ [tid] }
       | .taskPaused =>
         let st := saveToStorage st
         let st := add_task_log st tid "任务已暂停，浏览器会话已关闭" now
         let st := notifyTask st tid "paused"
         notifyGlobal st "task_paused"
       | .interrupted =>
         if t.status ≠ .paused then
           let st := updTask st tid { t with status := .cancelled }
           let st := saveToStorage st
           let st := notifyTask st tid "cancelled"
           notifyGlobal st "task_cancelled"
         else st
       | .taskCancelled => workerFail st tid t "" now
       | .error msg => workerFail st tid t msg now)
    tid

/-- `_schedule_auto_delete`, at the moment the delay elapses: delete the
task and publish `task_deleted` globally only if it still exists and its
status is still `completed`. -/
def auto_delete_fire (st : ManagerState) (tid : String) : ManagerState :=
  match getA st.tasks tid with
  | none => st
  | some t =>
    if t.status = .completed then
      let st := { st with tasks := delAssoc st.tasks tid }
      let st := saveToStorage st
      notifyGlobal st "task_deleted"
    else st

/-- One iteration of the loop in `_load_from_storage`: deserialise the
record, demote `running` to `pending`, register under its id.  A record
whose deserialisation raises `KeyError` or `ValueError` is skipped
(`except (KeyError, ValueError): continue`); any other error —
`AttributeError` from a non-dict `"progress"` value — is not caught and
aborts the whole load. -/
def loadStep (now : ℕ) (m : List (String × CrawlTask)) (r : List (String × Value)) :
    Except LoadErr (List (String × CrawlTask)) :=
  match CrawlTask.from_dict now r with
  | .error .keyError => .ok m
  | .error .valueError => .ok m
  | .error e => .error e
  | .ok t =>
    let t := if t.status = .running then { t with status := .pending } else t
    .ok (updAssoc m t.id t)

/-- The loop of `_load_from_storage` over the remaining records: an
uncaught error from `loadStep` propagates, abandoning the load. -/
def loadFold (now : ℕ) : List (String × CrawlTask) → List (List (String × Value)) →
    Except LoadErr (List (String × CrawlTask))
  | m, [] => .ok m
  | m, r :: rs =>
    match loadStep now m r with
    | .error e => .error e
    | .ok m2 => loadFold now m2 rs

/-- `_load_from_storage`: build the registry from the persisted records;
an uncaught deserialisation error aborts startup (it propagates out of
`TaskManager.__init__`). -/
def load_from_storage (now : ℕ) (records : List (List (String × Value))) :
    Except LoadErr (List (String × CrawlTask)) :=
  loadFold now [] records

/-- `_restore_pending_tasks`: the ids of the pending tasks, in registry
iteration order. -/
def pendingIds (m : List (String × CrawlTask)) : List String :=
  (m.filter (fun p => decide (p.2.status = .pending))).map (fun p => p.1)

/-- `start_worker` (first call): re-enqueue every pending task before the
worker loop starts. -/
def start_worker (st : ManagerState) : ManagerState :=
  { st with queue := st.queue ++ pendingIds st.tasks }

/-! ### Concrete fixtures used by the witness and counterexample theorems -/

def taskCompleted : CrawlTask :=
  { id := "a", url := "u", status := .completed }

def taskRetriedPending : CrawlTask :=
  { id := "b", url := "u", status := .pending }

def stC8 : ManagerState :=
  { tasks := [("a", taskCompleted), ("b", taskRetriedPending)] }

def taskFailedX : CrawlTask :=
  { id := "f", url := "u", status := .failed, error_message := "X",
    started_at := some 4, completed_at := some 9, logs := ["old"] }

def taskRunningY : CrawlTask :=
  { id := "g", url := "u", status := .running }

def stC7 : ManagerState :=
  { tasks := [("f", taskFailedX), ("g", taskRunningY)], queue := ["q0"] }

def taskRunningC5 : CrawlTask :=
  { id := "p1", url := "u", status := .running }

def stC5 : ManagerState :=
  { tasks := [("p1", taskRunningC5)],
    pauseFlags := [("p1", true)],
    cancelFlags := [("p1", false)],
    runningTasks := ["p1"] }

def taskRunningC1 : CrawlTask :=
  { id := "t1", url := "u", status := .running }

def stC1 : ManagerState :=
  { tasks := [("t1", taskRunningC1)],
    pauseFlags := [("t1", true)],
    cancelFlags := [("t1", true)],
    runningTasks := ["t1"] }

def taskRunningC3 : CrawlTask :=
  { id := "r1", url := "u", status := .running }

def stC3 : ManagerState :=
  { tasks := [("r1", taskRunningC3)],
    pauseFlags := [("r1", true)],
    cancelFlags := [("r1", false)],
    runningTasks := ["r1"] }

def taskPendingC3 : CrawlTask :=
  { id := "q1", url := "u", status := .pending }

def stC3p : ManagerState :=
  { tasks := [("q1", taskPendingC3)] }

def t51 : CrawlTask :=
  { id := "a", url := "u", status := .failed, started_at := some 3,
    logs := List.replicate 51 "line" }

def t2logs : CrawlTask :=
  { id := "w", url := "u", status := .cancelled, course_title := "T",
    course_id := "c1", output_dir := "o", progress := ⟨3, 7, "item"⟩,
    created_at := 11, started_at := some 12, completed_at := none,
    error_message := "e", logs := ["a", "b"], headless := false,
    download_images := true, download_audio := false, download_video := true }

def taskRunningC6 : CrawlTask :=
  { id := "r9", url := "u", status := .running, started_at := some 2 }

def recC6 : List (String × Value) := taskRunningC6.to_dict

def recNoUrl : List (String × Value) :=
  [("id", .str "a"), ("status", .str "pending")]

def recBadStatus : List (String × Value) :=
  [("id", .str "b"), ("url", .str "u"), ("status", .str "exploded")]

def recBadTimes : List (String × Value) :=
  [("id", .str "c"), ("url", .str "u"),
   ("created_at", .str "not-a-date"), ("started_at", .str "garbage")]

def recBadProgress : List (String × Value) :=
  [("id", .str "x"), ("url", .str "u"), ("progress", .int 3)]

def taskC2 : CrawlTask :=
  { id := "t", url := "u", status := .running }

def stC2 : ManagerState :=
  { tasks := [("t", taskC2)] }

/-! ### Association-list lemmas -/

theorem getA_updAssoc_self {α : Type} (m : List (String × α)) (k : String) (v : α) :
    getA (updAssoc m k v) k = some v := by
  induction m with
  | nil => simp [updAssoc, getA]
  | cons p rest ih =>
    obtain ⟨k1, v1⟩ := p
    by_cases h : k1 = k
    · simp [updAssoc, getA, h]
    · simp [updAssoc, getA, h, ih]

theorem getA_updAssoc_ne {α : Type} (m : List (String × α)) (k k' : String) (v : α)
    (h : k' ≠ k) : getA (updAssoc m k v) k' = getA m k' := by
  induction m with
  | nil => simp [updAssoc, getA, Ne.symm h]
  | cons p rest ih =>
    obtain ⟨k1, v1⟩ := p
    by_cases h1 : k1 = k
    · subst h1
      simp [updAssoc, getA, Ne.symm h]
    · simp only [updAssoc, if_neg h1, getA]
      by_cases h2 : k1 = k'
      · simp [h2]
      · simp [h2, ih]

theorem getA_updAssoc_cases {α : Type} {m : List (String × α)} {k k' : String} {v u : α}
    (h : getA (updAssoc m k v) k' = some u) : u = v ∨ getA m k' = some u := by
  by_cases hk : k' = k
  · subst hk
    rw [getA_updAssoc_self] at h
    exact Or.inl (Option.some.inj h).symm
  · rw [getA_updAssoc_ne m k k' v hk] at h
    exact Or.inr h

theorem isSome_getA_updAssoc {α : Type} (m : List (String × α)) (k k' : String) (v : α)
    (h : (getA m k').isSome) : (getA (updAssoc m k v) k').isSome := by
  by_cases hk : k' = k
  · subst hk; rw [getA_updAssoc_self]; rfl
  · rw [getA_updAssoc_ne m k k' v hk]; exact h

theorem getA_mem {α : Type} {m : List (String × α)} {k : String} {v : α}
    (h : getA m k = some v) : (k, v) ∈ m := by
  induction m with
  | nil => simp [getA] at h
  | cons p rest ih =>
    obtain ⟨k1, v1⟩ := p
    by_cases h1 : k1 = k
    · subst h1
      simp [getA] at h
      simp [h]
    · simp [getA, h1] at h
      exact List.mem_cons_of_mem _ (ih h)

theorem getA_delAssoc_self {α : Type} (m : List (String × α)) (k : String) :
    getA (delAssoc m k) k = none := by
  induction m with
  | nil => rfl
  | cons p rest ih =>
    obtain ⟨k1, v1⟩ := p
    by_cases h : k1 = k
    · simpa [delAssoc, h] using ih
    · simpa [delAssoc, getA, h] using ih

/-! ### C9: Runner-facing callbacks on unknown ids are silent no-ops -/

/-- C9: for a task id not present in the registry,
`update_task_progress`, `add_task_log` and `set_task_course_info` leave
the whole manager state unchanged: no task is mutated, no event is
published, nothing is persisted, and no error is raised. -/
theorem C9_unknown_id_callbacks_noop (st : ManagerState) (tid : String)
    (current total : Option ℤ) (ci : Option String) (cid ctitle msg : String) (now : ℕ)
    (h : getA st.tasks tid = none) :
    update_task_progress st tid current total ci = st ∧
    add_task_log st tid msg now = st ∧
    set_task_course_info st tid cid ctitle = st := by
  refine ⟨?_, ?_, ?_⟩ <;>
    simp [update_task_progress, add_task_log, set_task_course_info, h]

/-- Witness for C9 at the empty registry. -/
theorem C9_unknown_id_callbacks_noop_witness :
    update_task_progress {} "x" (some 1) (some 2) (some "i") = {} ∧
    add_task_log {} "x" "hello" 3 = {} ∧
    set_task_course_info {} "x" "c" "t" = {} :=
  C9_unknown_id_callbacks_noop {} "x" (some 1) (some 2) (some "i") "c" "t" "hello" 3 rfl

/-! ### C8: the auto-delete guard -/

/-- C8: when the auto-delete delay elapses, the task is removed (and a
`task_deleted` global event published) exactly when it still exists with
status `completed`; a task that was retried in the meantime (or deleted,
or otherwise no longer `completed`) is left untouched. -/
theorem C8_auto_delete_guard (st : ManagerState) (tid : String) :
    (∀ t, getA st.tasks tid = some t → t.status = .completed →
      getA (auto_delete_fire st tid).tasks tid = none ∧
      (auto_delete_fire st tid).events = st.events ++ [.global "task_deleted"]) ∧
    (getA st.tasks tid = none → auto_delete_fire st tid = st) ∧
    (∀ t, getA st.tasks tid = some t → t.status ≠ .completed →
      auto_delete_fire st tid = st) := by
  refine ⟨fun t ht hc => ?_, fun h => ?_, fun t ht hc => ?_⟩
  · constructor
    · simp [auto_delete_fire, ht, hc, saveToStorage, notifyGlobal, getA_delAssoc_self]
    · simp [auto_delete_fire, ht, hc, saveToStorage, notifyGlobal]
  · simp [auto_delete_fire, h]
  · simp [auto_delete_fire, ht, hc]

/-- Witness for C8: a still-completed task is deleted with the event
published; a task retried back to `pending` in the meantime is kept. -/
theorem C8_auto_delete_guard_witness :
    (getA (auto_delete_fire stC8 "a").tasks "a" = none ∧
      (auto_delete_fire stC8 "a").events = stC8.events ++ [.global "task_deleted"]) ∧
    auto_delete_fire stC8 "b" = stC8 :=
  ⟨(C8_auto_delete_guard stC8 "a").1 taskCompleted rfl rfl,
   (C8_auto_delete_guard stC8 "b").2.2 taskRetriedPending rfl (by decide)⟩

/-! ### C7: retry -/

/-- C7: `retry_task` succeeds exactly from `failed` or `cancelled`: the
task returns to `pending`, `error_message` and the run timestamps are
cleared, a retry log line is appended and the id is re-enqueued at the
tail of the FIFO; from any other status (or an unknown id) it returns
`False` and leaves the whole state unchanged. -/
theorem C7_retry (st : ManagerState) (tid : String) (now : ℕ) :
    (∀ t, getA st.tasks tid = some t → (t.status = .failed ∨ t.status = .cancelled) →
      (retry_task st tid now).2 = true ∧
      getA (retry_task st tid now).1.tasks tid = some
        { t with
          status := .pending,
          error_message := "",
          started_at := none,
          completed_at := none,
          logs := t.logs ++ [logEntry now "任务重试"] } ∧
      (retry_task st tid now).1.queue = st.queue ++ [tid]) ∧
    (∀ t, getA st.tasks tid = some t → ¬(t.status = .failed ∨ t.status = .cancelled) →
      retry_task st tid now = (st, false)) ∧
    (getA st.tasks tid = none → retry_task st tid now = (st, false)) := by
  refine ⟨fun t ht hs => ?_, fun t ht hs => ?_, fun h => ?_⟩
  · refine ⟨?_, ?_, ?_⟩ <;>
      simp [retry_task, ht, hs, updTask, saveToStorage, notifyTask, notifyGlobal,
        getA_updAssoc_self]
  · simp [retry_task, ht, hs]
  · simp [retry_task, h]

/-- Witness for C7: retrying a `failed` task with `errorMessage = "X"`
clears the error, resets it to `pending`, appends the log line and
re-enqueues it; retrying a `running` task fails without mutation. -/
theorem C7_retry_witness :
    ((retry_task stC7 "f" 5).2 = true ∧
      getA (retry_task stC7 "f" 5).1.tasks "f" = some
        { taskFailedX with
          status := .pending,
          error_message := "",
          started_at := none,
          completed_at := none,
          logs := taskFailedX.logs ++ [logEntry 5 "任务重试"] } ∧
      (retry_task stC7 "f" 5).1.queue = stC7.queue ++ ["f"]) ∧
    retry_task stC7 "g" 5 = (stC7, false) :=
  ⟨(C7_retry stC7 "f" 5).1 taskFailedX rfl (Or.inl rfl),
   (C7_retry stC7 "g" 5).2.1 taskRunningY rfl (by decide)⟩

/-! ### C5: pausing a running task -/

/-- C5: pausing a `running` task succeeds, sets its status to `paused`
immediately, persists the registry and publishes `paused` on both
streams; and whenever the Runner later ends with the paused signal
(`TaskPaused`), the worker loop leaves every status untouched — in
particular the task stays `paused` and is never overwritten to
`completed` or `failed`. -/
theorem C5_pause_running (st : ManagerState) (tid : String) (t : CrawlTask) (now : ℕ)
    (h : getA st.tasks tid = some t) (hr : t.status = .running) :
    (pause_task st tid).2 = true ∧
    statusOf (pause_task st tid).1 tid = some .paused ∧
    (pause_task st tid).1.store =
      (pause_task st tid).1.tasks.map (fun p => p.2.to_dict) ∧
    (pause_task st tid).1.events = st.events ++ [.task tid "paused", .global "task_paused"] ∧
    (∀ st2 tp, getA st2.tasks tid = some tp → tp.status = .paused →
      statusOf (workerHandleOutcome st2 tid .taskPaused now) tid = some .paused) := by
  have hnp : ¬ t.status = .pending := by rw [hr]; intro hh; cases hh
  refine ⟨?_, ?_, ?_, ?_, ?_⟩
  · by_cases hf : (getA st.pauseFlags tid).isSome <;>
      simp [pause_task, h, hr, hnp, hf]
  · by_cases hf : (getA st.pauseFlags tid).isSome <;>
      simp [pause_task, h, hr, hnp, hf, statusOf, updTask, saveToStorage,
        notifyTask, notifyGlobal, getA_updAssoc_self]
  · by_cases hf : (getA st.pauseFlags tid).isSome <;>
      simp [pause_task, h, hr, hnp, hf, updTask, saveToStorage, notifyTask, notifyGlobal]
  · by_cases hf : (getA st.pauseFlags tid).isSome <;>
      simp [pause_task, h, hr, hnp, hf, updTask, saveToStorage, notifyTask, notifyGlobal]
  · intro st2 tp h2 hp
    simp [workerHandleOutcome, h2, cleanupTaskEvents, saveToStorage, add_task_log,
      updTask, notifyTask, notifyGlobal, statusOf, getA_updAssoc_self, hp]

/-- Witness for C5 on a concrete running task. -/
theorem C5_pause_running_witness :
    (pause_task stC5 "p1").2 = true ∧
    statusOf (pause_task stC5 "p1").1 "p1" = some .paused ∧
    (pause_task stC5 "p1").1.store =
      (pause_task stC5 "p1").1.tasks.map (fun p => p.2.to_dict) ∧
    (pause_task stC5 "p1").1.events =
      stC5.events ++ [.task "p1" "paused", .global "task_paused"] ∧
    (∀ st2 tp, getA st2.tasks "p1" = some tp → tp.status = .paused →
      statusOf (workerHandleOutcome st2 "p1" .taskPaused 9) "p1" = some .paused) :=
  C5_pause_running stC5 "p1" taskRunningC5 9 rfl rfl

/-! ### C1: how the worker loop classifies a cancellation signal

`crawler_runner.check_task_state` raises `TaskCancelled` when it observes
the cancel flag.  `TaskCancelled` subclasses `Exception` and the
`try` block of `_worker_loop` has no handler for it — only for
`TaskPaused`, `asyncio.CancelledError` and the catch-all
`except Exception`.  A cancel signal reported by the Runner through
`TaskCancelled` is therefore recorded as a failure (status `failed`,
empty `error_message`, `failed` events), not as a cancellation.  The
forcible-interruption path (`asyncio.CancelledError`) is classified
correctly.  A run in which this happens: `cancel_task` is called while
the task is `running` but before the worker registers the runner handle
in `_running_tasks` (the worker is inside the `started` notifications) —
the cancel flag is set, nothing is interrupted, and the Runner's first
`check_task_state` raises `TaskCancelled`. -/

/-- C1: evaluating the worker dispatch at the failing input.  When the
Runner invocation of the running task `t1` ends with the `TaskCancelled`
control-flow outcome (it observed the cancel flag), the worker loop sets
the status to `failed` and publishes `failed` — not `cancelled` — while
the forcibly-interrupted outcome (`asyncio.CancelledError`) does produce
`cancelled`.  This contradicts the claim that both cancellation signals
lead to status `cancelled` and never `failed`. -/
theorem C1_taskCancelled_signal_marks_failed :
    statusOf (workerHandleOutcome stC1 "t1" .taskCancelled 5) "t1" = some .failed ∧
    (getA (workerHandleOutcome stC1 "t1" .taskCancelled 5).tasks "t1").map
      CrawlTask.error_message = some "" ∧
    Event.task "t1" "failed" ∈ (workerHandleOutcome stC1 "t1" .taskCancelled 5).events ∧
    Event.task "t1" "cancelled" ∉ (workerHandleOutcome stC1 "t1" .taskCancelled 5).events ∧
    statusOf (workerHandleOutcome stC1 "t1" .interrupted 5) "t1" = some .cancelled := by
  decide

/-! ### C3: idempotence of cancel -/

/-- C3 counterexample: for a `running` task, two back-to-back `cancel`
calls (no await point separates them, so the worker cannot observe the
interruption in between) both return `True`, and the second call changes
state again (a second interrupt of the runner handle is requested); the
claim that a second `cancel` always returns `false` with no further
change is false. -/
theorem C3_counterexample_double_cancel_running :
    (cancel_task stC3 "r1").2 = true ∧
    (cancel_task (cancel_task stC3 "r1").1 "r1").2 = true ∧
    (cancel_task stC3 "r1").1.interrupts = ["r1"] ∧
    (cancel_task (cancel_task stC3 "r1").1 "r1").1.interrupts = ["r1", "r1"] := by
  decide

/-- `cancel_task` on a task that is neither `pending` nor `running` (or
that does not exist) returns `False` and changes nothing. -/
theorem cancel_task_noop (st : ManagerState) (tid : String)
    (hnp : statusOf st tid ≠ some .pending)
    (hnr : statusOf st tid ≠ some .running) :
    cancel_task st tid = (st, false) := by
  cases hg : getA st.tasks tid with
  | none => simp [cancel_task, hg]
  | some t =>
    have h1 : ¬ t.status = .pending := fun hh => hnp (by simp [statusOf, hg, hh])
    have h2 : ¬ t.status = .running := fun hh => hnr (by simp [statusOf, hg, hh])
    simp [cancel_task, hg, h1, h2]

/-- C3 amended: calling `cancel` a second time returns `false` with no
state change whatsoever, provided the task is not (still) `running` when
the second call happens; for a task that is still `running` the second
call returns `True` again and re-interrupts the runner.  (After the first
call a task can only be `running` if it was already `running` before:
cancel moves `pending` to `cancelled` and touches no other status.) -/
theorem C3_amended_second_cancel (st : ManagerState) (tid : String)
    (h : statusOf (cancel_task st tid).1 tid ≠ some .running) :
    cancel_task (cancel_task st tid).1 tid = ((cancel_task st tid).1, false) := by
  refine cancel_task_noop _ tid ?_ h
  cases hg : getA st.tasks tid with
  | none =>
    simp [cancel_task, hg, statusOf]
  | some t =>
    by_cases hp : t.status = .pending
    · simp [cancel_task, hg, hp, statusOf, updTask, saveToStorage, notifyTask,
        notifyGlobal, getA_updAssoc_self]
    · by_cases hrun : t.status = .running
      · by_cases hc : (getA st.cancelFlags tid).isSome <;>
          by_cases hr : tid ∈ st.runningTasks <;>
            simp [cancel_task, hg, hp, hrun, statusOf, hc, hr]
      · simp [cancel_task, hg, hp, hrun, statusOf]

/-- Witness for the amended C3: a `pending` task is cancelled by the
first call (status `cancelled`, not `running`), and the second call
returns `false` without any state change. -/
theorem C3_amended_second_cancel_witness :
    statusOf (cancel_task stC3p "q1").1 "q1" ≠ some .running ∧
    cancel_task (cancel_task stC3p "q1").1 "q1" = ((cancel_task stC3p "q1").1, false) :=
  ⟨by decide, C3_amended_second_cancel stC3p "q1" (by decide)⟩

/-! ### C4: serialisation round trip -/

theorem parse_serOpt (o : Option ℕ) : parse_datetime (serOpt o) = o := by
  cases o <;> rfl

theorem ofValue_value (s : TaskStatus) : TaskStatus.ofValue s.value = some s := by
  cases s <;> rfl

theorem parse_dt (n : ℕ) : parse_datetime (.dt n) = some n := rfl

theorem strs_roundtrip (l : List String) : l.map (Value.asString ∘ Value.str) = l := by
  induction l with
  | nil => rfl
  | cons a l ih => simp [Value.asString, Function.comp, ih]

/-- What `from_dict ∘ to_dict` actually computes: every field of the task
survives except `logs`, which is truncated to the most recent 50 lines by
`to_dict` (`self.logs[-50:]`). -/
theorem from_dict_to_dict (t : CrawlTask) (now : ℕ) :
    CrawlTask.from_dict now t.to_dict =
      .ok { t with logs := t.logs.drop (t.logs.length - 50) } := by
  simp [CrawlTask.from_dict, CrawlTask.to_dict, getD, getA, statusParse, ofValue_value,
    parse_serOpt, parse_dt, Value.asString, Value.asInt, Value.asBool,
    Value.asStrList, strs_roundtrip]

/-- C4 amended: serialising with `to_dict` and deserialising with
`from_dict` is the identity on every task with at most 50 log lines
(arbitrary status, timestamps, progress, options and error fields); with
more than 50 log lines all fields but `logs` survive and `logs` is
truncated to the most recent 50. -/
theorem C4_amended_roundtrip (t : CrawlTask) (now : ℕ) (h : t.logs.length ≤ 50) :
    CrawlTask.from_dict now t.to_dict = .ok t := by
  rw [from_dict_to_dict]
  simp [Nat.sub_eq_zero_of_le h]

/-- C4 counterexample: a task with 51 log lines does not survive the
round trip — `to_dict` keeps only the last 50 — so the claim is false
for arbitrary field values. -/
theorem C4_counterexample_51_logs :
    CrawlTask.from_dict 0 t51.to_dict ≠ .ok t51 := by
  decide

/-- Witness for the amended C4 on a task exercising every field. -/
theorem C4_amended_roundtrip_witness :
    t2logs.logs.length ≤ 50 ∧ CrawlTask.from_dict 9 t2logs.to_dict = .ok t2logs :=
  ⟨by decide, C4_amended_roundtrip t2logs 9 (by decide)⟩

/-! ### C6: startup recovery -/

theorem loadStep_ok_no_running (now : ℕ) (m : List (String × CrawlTask))
    (r : List (String × Value)) (m2 : List (String × CrawlTask))
    (hm : ∀ tid t, getA m tid = some t → t.status ≠ .running)
    (h : loadStep now m r = .ok m2) :
    ∀ tid t, getA m2 tid = some t → t.status ≠ .running := by
  unfold loadStep at h
  cases hfd : CrawlTask.from_dict now r with
  | error e =>
    rw [hfd] at h
    cases e with
    | keyError => simp only [Except.ok.injEq] at h; subst h; exact hm
    | valueError => simp only [Except.ok.injEq] at h; subst h; exact hm
    | attributeError => simp at h
  | ok t0 =>
    rw [hfd] at h
    simp only [Except.ok.injEq] at h
    subst h
    intro tid t h
    rcases getA_updAssoc_cases h with hv | hv
    · subst hv
      by_cases hr : t0.status = .running <;> simp [hr]
    · exact hm tid t hv

theorem loadStep_ok_preserves_some (now : ℕ) (m : List (String × CrawlTask))
    (r : List (String × Value)) (m2 : List (String × CrawlTask))
    (h : loadStep now m r = .ok m2) (k : String) (hk : (getA m k).isSome) :
    (getA m2 k).isSome := by
  unfold loadStep at h
  cases hfd : CrawlTask.from_dict now r with
  | error e =>
    rw [hfd] at h
    cases e with
    | keyError => simp only [Except.ok.injEq] at h; subst h; exact hk
    | valueError => simp only [Except.ok.injEq] at h; subst h; exact hk
    | attributeError => simp at h
  | ok t0 =>
    rw [hfd] at h
    simp only [Except.ok.injEq] at h
    subst h
    exact isSome_getA_updAssoc _ _ _ _ hk

theorem loadFold_no_running (now : ℕ) (records : List (List (String × Value))) :
    ∀ m, (∀ tid t, getA m tid = some t → t.status ≠ .running) →
    ∀ m', loadFold now m records = .ok m' →
    ∀ tid t, getA m' tid = some t → t.status ≠ .running := by
  induction records with
  | nil =>
    intro m hm m' h
    simp only [loadFold, Except.ok.injEq] at h
    subst h
    exact hm
  | cons r rs ih =>
    intro m hm m' h
    unfold loadFold at h
    cases hs : loadStep now m r with
    | error e => rw [hs] at h; simp at h
    | ok m2 =>
      rw [hs] at h
      exact ih m2 (loadStep_ok_no_running now m r m2 hm hs) m' h

theorem mem_pendingIds (m : List (String × CrawlTask)) (tid : String) (t : CrawlTask)
    (hm : (tid, t) ∈ m) (hp : t.status = .pending) : tid ∈ pendingIds m :=
  List.mem_map.2 ⟨(tid, t), List.mem_filter.2 ⟨hm, by simp [hp]⟩, rfl⟩

theorem loadFold_preserves_some (now : ℕ) (records : List (List (String × Value))) :
    ∀ m m', loadFold now m records = .ok m' →
    ∀ k, (getA m k).isSome → (getA m' k).isSome := by
  induction records with
  | nil =>
    intro m m' h k hk
    simp only [loadFold, Except.ok.injEq] at h
    subst h
    exact hk
  | cons r rs ih =>
    intro m m' h k hk
    unfold loadFold at h
    cases hs : loadStep now m r with
    | error e => rw [hs] at h; simp at h
    | ok m2 =>
      rw [hs] at h
      exact ih m2 m' h k (loadStep_ok_preserves_some now m r m2 hs k hk)

theorem loadFold_present (now : ℕ) (records : List (List (String × Value)))
    (r : List (String × Value)) (hr : r ∈ records)
    (t : CrawlTask) (hfd : CrawlTask.from_dict now r = .ok t) :
    ∀ m m', loadFold now m records = .ok m' → (getA m' t.id).isSome := by
  induction records with
  | nil => cases hr
  | cons r0 rs ih =>
    intro m m' h
    unfold loadFold at h
    rcases List.mem_cons.1 hr with hr0 | hrs
    · subst hr0
      have hs : loadStep now m r =
          .ok (updAssoc m t.id
            (if t.status = .running then { t with status := .pending } else t)) := by
        unfold loadStep
        rw [hfd]
        by_cases hrun : t.status = .running <;> simp [hrun]
      rw [hs] at h
      refine loadFold_preserves_some now rs _ m' h t.id ?_
      rw [getA_updAssoc_self]
      rfl
    · cases hs : loadStep now m r0 with
      | error e => rw [hs] at h; simp at h
      | ok m2 =>
        rw [hs] at h
        exact ih hrs m2 m' h

/-- C6: startup recovery never loses a persisted running task.  Whenever
`_load_from_storage` builds a registry `m` (it did not abort), no
registered task has status `running` (running records are demoted to
`pending`); `start_worker` re-enqueues every pending task id onto the
FIFO queue; and the id of every record that deserialises successfully —
in particular every persisted running task — is present in the
registry. -/
theorem C6_startup_recovery (now : ℕ) (records : List (List (String × Value))) :
    ∀ m, load_from_storage now records = .ok m →
      (∀ tid t, getA m tid = some t → t.status ≠ .running) ∧
      (∀ tid t, getA m tid = some t → t.status = .pending →
        tid ∈ (start_worker { tasks := m }).queue) ∧
      (∀ r, r ∈ records → ∀ t, CrawlTask.from_dict now r = .ok t →
        (getA m t.id).isSome) := by
  intro m hm
  refine ⟨?_, ?_, ?_⟩
  · exact loadFold_no_running now records [] (by intro tid t h; cases h) m hm
  · intro tid t h hp
    simpa [start_worker] using mem_pendingIds _ tid t (getA_mem h) hp
  · intro r hr t hfd
    exact loadFold_present now records r hr t hfd [] m hm

/-- Witness for C6: a persisted record with status `running` is loaded as
`pending` and its id is re-enqueued. -/
theorem C6_startup_recovery_witness :
    load_from_storage 0 [recC6] =
      .ok [("r9", { taskRunningC6 with status := .pending })] ∧
    ({ taskRunningC6 with status := .pending } : CrawlTask).status ≠ .running ∧
    "r9" ∈ (start_worker
      { tasks := [("r9", { taskRunningC6 with status := .pending })] }).queue ∧
    (getA [("r9", { taskRunningC6 with status := .pending })] "r9").isSome :=
  have hld : load_from_storage 0 [recC6] =
      .ok [("r9", { taskRunningC6 with status := .pending })] := by decide
  ⟨hld,
   (C6_startup_recovery 0 [recC6] _ hld).1 "r9" _ (by decide),
   (C6_startup_recovery 0 [recC6] _ hld).2.1 "r9"
     { taskRunningC6 with status := .pending } (by decide) (by decide),
   (C6_startup_recovery 0 [recC6] _ hld).2.2 recC6 (by simp) taskRunningC6 (by decide)⟩

/-! ### C10: loading persisted records

Loading is not total: `from_dict` reads the progress sub-record through
`progress_data.get(...)`, which raises `AttributeError` when the stored
`"progress"` value is not a dict, and `_load_from_storage` catches only
`KeyError` and `ValueError`, so such a record aborts the whole load (and
startup) instead of being skipped. -/

theorem isDict_exists {v : Value} (h : v.isDict = true) :
    ∃ kvs, v = .dict kvs := by
  cases v <;> simp [Value.isDict] at h ⊢

/-- C10 counterexample: a record whose `"progress"` key holds a non-dict
value (here the int `3`) raises `AttributeError`, which the
`except (KeyError, ValueError)` of `_load_from_storage` does not catch:
the record is neither skipped nor loaded — the whole load aborts, losing
even a later well-formed record — so loading is not total over arbitrary
persisted records and startup is aborted. -/
theorem C10_counterexample_nondict_progress :
    CrawlTask.from_dict 0 recBadProgress = .error .attributeError ∧
    loadStep 0 [] recBadProgress = .error .attributeError ∧
    load_from_storage 0 [recBadProgress, recC6] = .error .attributeError := by
  refine ⟨by decide, by decide, by decide⟩

/-- C10 amended: over records whose `"progress"` value, when present, is
a dict (true of every record the program itself persists), loading never
aborts: a record with no `id` or no `url` key fails with `KeyError`, a
record whose `status` is a string naming no status member fails with
`ValueError`, both errors are caught so the record is skipped and the
remaining records still load (the fold continues from the unchanged
registry); and timestamp fields never fail — a missing or unparseable
(non-ISO) string gives `None` for `started_at`/`completed_at` and the
current time for `created_at`.  A non-dict `"progress"` value instead
raises an uncaught `AttributeError` (see the counterexample). -/
theorem C10_amended_load_total (now : ℕ) :
    (∀ data, (getD data "progress" (.dict [])).isDict = true →
      getA data "id" = none →
      CrawlTask.from_dict now data = .error .keyError) ∧
    (∀ data v, (getD data "progress" (.dict [])).isDict = true →
      getA data "id" = some v → getA data "url" = none →
      CrawlTask.from_dict now data = .error .keyError) ∧
    (∀ data s, (getD data "progress" (.dict [])).isDict = true →
      (getA data "id").isSome → (getA data "url").isSome →
      getA data "status" = some (.str s) → TaskStatus.ofValue s = none →
      CrawlTask.from_dict now data = .error .valueError) ∧
    (∀ r, (CrawlTask.from_dict now r = .error .keyError ∨
        CrawlTask.from_dict now r = .error .valueError) →
      ∀ m, loadStep now m r = .ok m) ∧
    (∀ data t, CrawlTask.from_dict now data = .ok t →
      (∀ s, getA data "started_at" = some (.str s) → t.started_at = none) ∧
      (getA data "started_at" = none → t.started_at = none) ∧
      (∀ s, getA data "completed_at" = some (.str s) → t.completed_at = none) ∧
      (∀ s, getA data "created_at" = some (.str s) → t.created_at = now) ∧
      (getA data "created_at" = none → t.created_at = now)) := by
  refine ⟨?_, ?_, ?_, ?_, ?_⟩
  · intro data hpd h
    obtain ⟨kvs, hkvs⟩ := isDict_exists hpd
    simp [CrawlTask.from_dict, hkvs, h]
  · intro data v hpd h1 h2
    obtain ⟨kvs, hkvs⟩ := isDict_exists hpd
    simp [CrawlTask.from_dict, hkvs, h1, h2]
  · intro data s hpd hid hurl hst hof
    obtain ⟨kvs, hkvs⟩ := isDict_exists hpd
    obtain ⟨vid, hvid⟩ := Option.isSome_iff_exists.1 hid
    obtain ⟨vurl, hvurl⟩ := Option.isSome_iff_exists.1 hurl
    simp only [getD] at hkvs
    simp [CrawlTask.from_dict, getD, hkvs, hvid, hvurl, hst, statusParse, hof]
  · intro r h m
    rcases h with h | h <;> simp [loadStep, h]
  · intro data t h
    unfold CrawlTask.from_dict at h
    cases hpv : getD data "progress" (.dict []) with
    | dict kvs =>
      rw [hpv] at h
      simp only at h
      cases hid : getA data "id" with
      | none => rw [hid] at h; simp at h
      | some vid =>
        rw [hid] at h
        cases hurl : getA data "url" with
        | none => rw [hurl] at h; simp at h
        | some vurl =>
          rw [hurl] at h
          cases hsp : statusParse (getD data "status" (.str "pending")) with
          | error e => rw [hsp] at h; simp at h
          | ok s0 =>
            rw [hsp] at h
            simp only [Except.ok.injEq] at h
            subst h
            refine ⟨?_, ?_, ?_, ?_, ?_⟩
            · intro s hs; simp [getD, hs, parse_datetime]
            · intro hs; simp [getD, hs, parse_datetime]
            · intro s hs; simp [getD, hs, parse_datetime]
            · intro s hs; simp [getD, hs, parse_datetime]
            · intro hs; simp [getD, hs, parse_datetime]
    | str s => rw [hpv] at h; simp at h
    | int n => rw [hpv] at h; simp at h
    | bool b => rw [hpv] at h; simp at h
    | null => rw [hpv] at h; simp at h
    | list vs => rw [hpv] at h; simp at h
    | dt n => rw [hpv] at h; simp at h

/-- Witness for the amended C10: a record with no `url` and a record with
an unknown status string are skipped (and skipping leaves the registry
unchanged, so the fold continues), while a record with unparseable
timestamps loads with `started_at = None` and `created_at = now`. -/
theorem C10_amended_load_total_witness :
    CrawlTask.from_dict 7 recNoUrl = .error .keyError ∧
    CrawlTask.from_dict 7 recBadStatus = .error .valueError ∧
    loadStep 7 [] recBadStatus = .ok [] ∧
    (∀ t, CrawlTask.from_dict 7 recBadTimes = .ok t →
      (∀ s, getA recBadTimes "started_at" = some (.str s) → t.started_at = none)) ∧
    (CrawlTask.from_dict 7 recBadTimes =
      .ok { id := "c", url := "u", created_at := 7 }) :=
  ⟨(C10_amended_load_total 7).2.1 recNoUrl (.str "a") rfl rfl rfl,
   (C10_amended_load_total 7).2.2.1 recBadStatus "exploded" rfl rfl rfl rfl rfl,
   (C10_amended_load_total 7).2.2.2.1 recBadStatus
     (Or.inr ((C10_amended_load_total 7).2.2.1 recBadStatus "exploded"
       rfl rfl rfl rfl rfl)) [],
   fun t ht => ((C10_amended_load_total 7).2.2.2.2 recBadTimes t ht).1,
   by decide⟩

/-! ### C2: the derived percentage -/

/-- Truncating a nonnegative dyadic `m * 2 ^ e` agrees with the rational
floor. -/
theorem shiftTrunc_eq_floor (m : ℕ) (e : ℤ) :
    ((shiftTrunc m e : ℕ) : ℤ) = ⌊(m : ℚ) * pow2 e⌋ := by
  unfold shiftTrunc pow2
  by_cases he : 0 ≤ e
  · rw [if_pos he]
    lift e to ℕ using he with n
    rw [Int.toNat_natCast, zpow_natCast]
    have h1 : ((m : ℚ)) * 2 ^ n = ((m * 2 ^ n : ℕ) : ℚ) := by push_cast; ring
    rw [h1, Int.floor_natCast]
  · rw [if_neg he]
    push_neg at he
    obtain ⟨n, rfl⟩ : ∃ n : ℕ, e = -(n : ℤ) := ⟨(-e).toNat, by omega⟩
    have hn : (-(-(n : ℤ))).toNat = n := by omega
    rw [hn, zpow_neg, zpow_natCast, ← div_eq_mul_inv]
    have h0 : (0 : ℚ) ≤ (m : ℚ) / 2 ^ n := by positivity
    rw [← Int.natCast_floor_eq_floor h0]
    have h2 : ((2 : ℚ) ^ n) = ((2 ^ n : ℕ) : ℚ) := by push_cast; ring
    rw [h2, Nat.floor_div_nat, Nat.floor_natCast]

theorem pow2_pos (e : ℤ) : 0 < pow2 e :=
  zpow_pos (by norm_num) e

theorem pow2_add (a b : ℤ) : pow2 (a + b) = pow2 a * pow2 b :=
  zpow_add₀ (by norm_num) a b

theorem pow2_natCast (n : ℕ) : pow2 (n : ℤ) = 2 ^ n :=
  zpow_natCast 2 n

theorem pow2_one : pow2 1 = 2 :=
  zpow_one 2

/-- Round-to-nearest never overshoots by more than half an ulp. -/
theorem roundNearEven_le (n d : ℕ) (hd : 0 < d) :
    (roundNearEven n d : ℚ) ≤ (n : ℚ) / (d : ℚ) + 1 / 2 := by
  have hdq : (0 : ℚ) < (d : ℚ) := by exact_mod_cast hd
  have hmod : (d : ℚ) * ((n / d : ℕ) : ℚ) + ((n % d : ℕ) : ℚ) = (n : ℚ) := by
    exact_mod_cast Nat.div_add_mod n d
  have hid : (n : ℚ) / (d : ℚ) = ((n / d : ℕ) : ℚ) + ((n % d : ℕ) : ℚ) / (d : ℚ) := by
    field_simp
    linarith
  have hr0 : (0 : ℚ) ≤ ((n % d : ℕ) : ℚ) / (d : ℚ) := by positivity
  simp only [roundNearEven]
  split_ifs with h1 h2 h3
  · rw [hid]
    linarith
  · have hq2 : (d : ℚ) < 2 * ((n % d : ℕ) : ℚ) := by exact_mod_cast h2
    have hr : (1 : ℚ) / 2 ≤ ((n % d : ℕ) : ℚ) / (d : ℚ) := by
      rw [le_div_iff₀ hdq]
      linarith
    push_cast
    rw [hid]
    linarith
  · rw [hid]
    linarith
  · have hdr : d = 2 * (n % d) := by omega
    have hrpos : 0 < n % d := by omega
    have hrq : (0 : ℚ) < ((n % d : ℕ) : ℚ) := by exact_mod_cast hrpos
    have hdq2 : (d : ℚ) = 2 * ((n % d : ℕ) : ℚ) := by exact_mod_cast hdr
    have hr : ((n % d : ℕ) : ℚ) / (d : ℚ) = 1 / 2 := by
      rw [hdq2]
      rw [div_eq_iff (by positivity)]
      ring
    push_cast
    rw [hid, hr]
    linarith

theorem bitlenAux_zero (fuel : ℕ) : bitlenAux fuel 0 = 0 := by
  cases fuel <;> rfl

/-- `bitlen` really is the binary length: `2 ^ (bitlen n - 1) ≤ n < 2 ^ bitlen n`
for `n ≥ 1` (fuel version). -/
theorem bitlenAux_bounds :
    ∀ (fuel n : ℕ), 1 ≤ n → n ≤ fuel →
      2 ^ (bitlenAux fuel n - 1) ≤ n ∧ n < 2 ^ bitlenAux fuel n := by
  intro fuel
  induction fuel with
  | zero => intro n h1 h2; omega
  | succ fuel ih =>
    intro n h1 h2
    by_cases hone : n = 1
    · subst hone
      simp [bitlenAux, bitlenAux_zero]
    · have h2n : 2 ≤ n := by omega
      have hrec : bitlenAux (fuel + 1) n = bitlenAux fuel (n / 2) + 1 := by
        simp [bitlenAux, show ¬ n = 0 by omega]
      obtain ⟨hl, hu⟩ := ih (n / 2) (by omega) (by omega)
      rw [hrec]
      have hb1 : 1 ≤ bitlenAux fuel (n / 2) := by
        by_contra hb
        push_neg at hb
        have hb0 : bitlenAux fuel (n / 2) = 0 := by omega
        rw [hb0] at hu
        norm_num at hu
        omega
      have hsplit : 2 ^ bitlenAux fuel (n / 2) =
          2 * 2 ^ (bitlenAux fuel (n / 2) - 1) := by
        conv_lhs =>
          rw [show bitlenAux fuel (n / 2) = (bitlenAux fuel (n / 2) - 1) + 1 by omega]
        rw [pow_succ]
        ring
      constructor
      · rw [Nat.add_sub_cancel, hsplit]
        omega
      · rw [pow_succ, hsplit]
        rw [hsplit] at hu
        omega

theorem bitlen_bounds (n : ℕ) (h : 1 ≤ n) :
    2 ^ (bitlen n - 1) ≤ n ∧ n < 2 ^ bitlen n := by
  unfold bitlen
  exact bitlenAux_bounds n n h le_rfl

/-- Core error bound of the final normalisation-and-round step of
`roundPQ`: given the scaled pair `nn / dd` is above `2 ^ 52`, the rounded
dyadic value exceeds the exact value `nn / dd * 2 ^ e0` by at most a
relative `2 ^ (-53)`. -/
theorem roundPQ_branch_le (nn dd : ℕ) (e0 : ℤ) (hdpos : 0 < dd)
    (hnorm : 2 ^ 52 * dd < nn) :
    (((if 2 ^ 53 * dd ≤ nn then (roundNearEven nn (dd * 2), e0 + 1)
          else (roundNearEven nn dd, e0)).1 : ℕ) : ℚ) *
        pow2 (if 2 ^ 53 * dd ≤ nn then (roundNearEven nn (dd * 2), e0 + 1)
          else (roundNearEven nn dd, e0)).2 ≤
      ((nn : ℚ) / (dd : ℚ) * pow2 e0) * (1 + 1 / 2 ^ 53) := by
  have hddq : (0 : ℚ) < (dd : ℚ) := by exact_mod_cast hdpos
  have hpos := pow2_pos e0
  by_cases hbr : 2 ^ 53 * dd ≤ nn
  · simp only [if_pos hbr]
    have h1 : (roundNearEven nn (dd * 2) : ℚ) ≤ (nn : ℚ) / ((dd * 2 : ℕ) : ℚ) + 1 / 2 :=
      roundNearEven_le nn (dd * 2) (by positivity)
    have hp2 : pow2 (e0 + 1) = pow2 e0 * 2 := by rw [pow2_add, pow2_one]
    have hx : (2 : ℚ) ^ 53 ≤ (nn : ℚ) / (dd : ℚ) := by
      rw [le_div_iff₀ hddq]
      exact_mod_cast hbr
    calc ((roundNearEven nn (dd * 2) : ℕ) : ℚ) * pow2 (e0 + 1)
        ≤ ((nn : ℚ) / ((dd * 2 : ℕ) : ℚ) + 1 / 2) * (pow2 e0 * 2) := by
          rw [hp2]
          exact mul_le_mul_of_nonneg_right h1 (by positivity)
      _ = (nn : ℚ) / (dd : ℚ) * pow2 e0 + pow2 e0 := by
          push_cast
          field_simp
          ring
      _ ≤ ((nn : ℚ) / (dd : ℚ) * pow2 e0) * (1 + 1 / 2 ^ 53) := by
          have h2 : (2 : ℚ) ^ 53 * pow2 e0 ≤ (nn : ℚ) / (dd : ℚ) * pow2 e0 :=
            mul_le_mul_of_nonneg_right hx (le_of_lt hpos)
          have h3 : pow2 e0 ≤ ((nn : ℚ) / (dd : ℚ) * pow2 e0) * (1 / 2 ^ 53) := by
            calc pow2 e0 = ((2 : ℚ) ^ 53 * pow2 e0) * (1 / 2 ^ 53) := by ring
              _ ≤ ((nn : ℚ) / (dd : ℚ) * pow2 e0) * (1 / 2 ^ 53) :=
                mul_le_mul_of_nonneg_right h2 (by norm_num)
          linarith
  · simp only [if_neg hbr]
    have h1 : (roundNearEven nn dd : ℚ) ≤ (nn : ℚ) / (dd : ℚ) + 1 / 2 :=
      roundNearEven_le nn dd hdpos
    have hx : (2 : ℚ) ^ 52 ≤ (nn : ℚ) / (dd : ℚ) := by
      rw [le_div_iff₀ hddq]
      exact_mod_cast (le_of_lt hnorm)
    calc ((roundNearEven nn dd : ℕ) : ℚ) * pow2 e0
        ≤ ((nn : ℚ) / (dd : ℚ) + 1 / 2) * pow2 e0 :=
          mul_le_mul_of_nonneg_right h1 (le_of_lt hpos)
      _ = (nn : ℚ) / (dd : ℚ) * pow2 e0 + pow2 e0 / 2 := by ring
      _ ≤ ((nn : ℚ) / (dd : ℚ) * pow2 e0) * (1 + 1 / 2 ^ 53) := by
          have h2 : (2 : ℚ) ^ 52 * pow2 e0 ≤ (nn : ℚ) / (dd : ℚ) * pow2 e0 :=
            mul_le_mul_of_nonneg_right hx (le_of_lt hpos)
          have h3 : pow2 e0 / 2 ≤ ((nn : ℚ) / (dd : ℚ) * pow2 e0) * (1 / 2 ^ 53) := by
            calc pow2 e0 / 2 = ((2 : ℚ) ^ 52 * pow2 e0) * (1 / 2 ^ 53) := by ring
              _ ≤ ((nn : ℚ) / (dd : ℚ) * pow2 e0) * (1 / 2 ^ 53) :=
                mul_le_mul_of_nonneg_right h2 (by norm_num)
          linarith

/-- The binary64 rounding of `p / q` never exceeds `p / q` by more than a
relative `2 ^ (-53)` (round-to-nearest at 53 bits of significand). -/
theorem rpqVal_le (p q : ℕ) (hp : 0 < p) (hq : 0 < q) :
    ((roundPQ p q).1 : ℚ) * pow2 (roundPQ p q).2 ≤
      ((p : ℚ) / (q : ℚ)) * (1 + 1 / 2 ^ 53) := by
  obtain ⟨hpl, hpu⟩ := bitlen_bounds p hp
  obtain ⟨hql, hqu⟩ := bitlen_bounds q hq
  simp only [roundPQ]
  set bp := bitlen p with hbp
  set bq := bitlen q with hbq
  set e0 : ℤ := (bp : ℤ) - (bq : ℤ) - 53 with he0
  set nn : ℕ := if 0 ≤ e0 then p else p * 2 ^ (-e0).toNat with hnn
  set dd : ℕ := if 0 ≤ e0 then q * 2 ^ e0.toNat else q with hdd
  have hbp1 : 1 ≤ bp := by
    by_contra hb
    push_neg at hb
    rw [show bp = 0 by omega] at hpu
    norm_num at hpu
    omega
  have hdpos : 0 < dd := by
    rw [hdd]
    split_ifs <;> positivity
  have hnorm : 2 ^ 52 * dd < nn := by
    rw [hnn, hdd]
    by_cases he : 0 ≤ e0
    · simp only [if_pos he]
      calc 2 ^ 52 * (q * 2 ^ e0.toNat) < 2 ^ 52 * (2 ^ bq * 2 ^ e0.toNat) := by
            gcongr
        _ = 2 ^ (52 + (bq + e0.toNat)) := by rw [← pow_add, ← pow_add]
        _ = 2 ^ (bp - 1) := by congr 1; omega
        _ ≤ p := hpl
    · simp only [if_neg he]
      calc 2 ^ 52 * q < 2 ^ 52 * 2 ^ bq := by gcongr
        _ = 2 ^ (52 + bq) := by rw [← pow_add]
        _ ≤ 2 ^ ((bp - 1) + (-e0).toNat) := Nat.pow_le_pow_right (by norm_num) (by omega)
        _ = 2 ^ (bp - 1) * 2 ^ (-e0).toNat := pow_add 2 _ _
        _ ≤ p * 2 ^ (-e0).toNat := by gcongr
  have hq0 : (q : ℚ) ≠ 0 := by positivity
  have hscale : ((nn : ℚ) / (dd : ℚ)) * pow2 e0 = (p : ℚ) / (q : ℚ) := by
    rw [hnn, hdd]
    by_cases he : 0 ≤ e0
    · simp only [if_pos he]
      have hpe : pow2 e0 = (2 : ℚ) ^ e0.toNat := by
        conv_lhs => rw [show e0 = ((e0.toNat : ℕ) : ℤ) from (Int.toNat_of_nonneg he).symm]
        exact pow2_natCast _
      rw [hpe]
      have h2 : ((2 : ℚ) ^ e0.toNat) ≠ 0 := by positivity
      push_cast
      field_simp
      ring
    · simp only [if_neg he]
      have hpe : pow2 e0 = ((2 : ℚ) ^ (-e0).toNat)⁻¹ := by
        conv_lhs => rw [show e0 = -(((-e0).toNat : ℕ) : ℤ) by omega]
        rw [show pow2 (-(((-e0).toNat : ℕ) : ℤ)) = (pow2 (((-e0).toNat : ℕ) : ℤ))⁻¹ from
          zpow_neg 2 _, pow2_natCast]
      rw [hpe]
      have h2 : ((2 : ℚ) ^ (-e0).toNat) ≠ 0 := by positivity
      push_cast
      field_simp
      ring
  calc (((if 2 ^ 53 * dd ≤ nn then (roundNearEven nn (dd * 2), e0 + 1)
          else (roundNearEven nn dd, e0)).1 : ℕ) : ℚ) *
        pow2 (if 2 ^ 53 * dd ≤ nn then (roundNearEven nn (dd * 2), e0 + 1)
          else (roundNearEven nn dd, e0)).2
      ≤ ((nn : ℚ) / (dd : ℚ) * pow2 e0) * (1 + 1 / 2 ^ 53) :=
        roundPQ_branch_le nn dd e0 hdpos hnorm
    _ = ((p : ℚ) / (q : ℚ)) * (1 + 1 / 2 ^ 53) := by rw [hscale]

/-- The bound part of C2, with no exactness assumptions: for
`0 ≤ current ≤ total` and `total ≠ 0` the binary64 computation of the
percentage lands in `[0, 100]` (rounding can overshoot `current/total`
only by a relative `2 ^ (-53)` per operation, so the value stays below
`101` and its truncation below `101`). -/
theorem percentage_within (p : TaskProgress) (ht : p.total ≠ 0)
    (hc : 0 ≤ p.current) (hct : p.current ≤ p.total) :
    0 ≤ p.percentage ∧ p.percentage ≤ 100 := by
  by_cases hc0 : p.current = 0
  · constructor <;> simp [TaskProgress.percentage, ht, hc0]
  · have htpos : (0 : ℤ) < p.total := by omega
    have hnc : decide (p.current < 0) = false := decide_eq_false (not_lt.2 hc)
    have hnt : decide (p.total < 0) = false :=
      decide_eq_false (not_lt.2 (le_of_lt htpos))
    simp only [TaskProgress.percentage, if_neg ht, if_neg hc0, hnc, hnt,
      bne_self_eq_false, Bool.false_eq_true, if_false]
    constructor
    · positivity
    · rw [shiftTrunc_eq_floor]
      have hcn : 0 < p.current.natAbs := by omega
      have htn : 0 < p.total.natAbs := by omega
      by_cases hm1 : (roundPQ p.current.natAbs p.total.natAbs).1 = 0
      · rw [hm1]
        norm_num
        rw [show roundPQ 0 1 = (0, -54) from by decide]
        norm_num
      · have hV1 := rpqVal_le p.current.natAbs p.total.natAbs hcn htn
        have hratio : ((p.current.natAbs : ℕ) : ℚ) / ((p.total.natAbs : ℕ) : ℚ) ≤ 1 := by
          rw [div_le_one (by exact_mod_cast htn)]
          exact_mod_cast (by omega : p.current.natAbs ≤ p.total.natAbs)
        have hV2 := rpqVal_le ((roundPQ p.current.natAbs p.total.natAbs).1 * 100) 1
          (by positivity) (by norm_num)
        set m1 := (roundPQ p.current.natAbs p.total.natAbs).1 with hm1d
        set e1 := (roundPQ p.current.natAbs p.total.natAbs).2 with he1d
        set m2 := (roundPQ (m1 * 100) 1).1 with hm2d
        set e2 := (roundPQ (m1 * 100) 1).2 with he2d
        have hp1 := pow2_pos e1
        have hval : (m2 : ℚ) * pow2 (e1 + e2) < 101 := by
          have hstep1 : (m2 : ℚ) * pow2 (e1 + e2) = ((m2 : ℚ) * pow2 e2) * pow2 e1 := by
            rw [pow2_add]
            ring
          have hstep2 : ((m2 : ℚ) * pow2 e2) * pow2 e1 ≤
              ((((m1 * 100 : ℕ) : ℚ) / ((1 : ℕ) : ℚ)) * (1 + 1 / 2 ^ 53)) * pow2 e1 :=
            mul_le_mul_of_nonneg_right hV2 (le_of_lt hp1)
          have hstep3 : ((((m1 * 100 : ℕ) : ℚ) / ((1 : ℕ) : ℚ)) * (1 + 1 / 2 ^ 53)) * pow2 e1
              = ((m1 : ℚ) * pow2 e1) * (100 * (1 + 1 / 2 ^ 53)) := by
            push_cast
            ring
          have hstep4 : ((m1 : ℚ) * pow2 e1) * (100 * (1 + 1 / 2 ^ 53)) ≤
              ((((p.current.natAbs : ℕ) : ℚ) / ((p.total.natAbs : ℕ) : ℚ) * (1 + 1 / 2 ^ 53)) *
                (100 * (1 + 1 / 2 ^ 53))) :=
            mul_le_mul_of_nonneg_right hV1 (by norm_num)
          have hstep5 : (((p.current.natAbs : ℕ) : ℚ) / ((p.total.natAbs : ℕ) : ℚ) *
                (1 + 1 / 2 ^ 53)) * (100 * (1 + 1 / 2 ^ 53)) ≤
              (1 * (1 + 1 / 2 ^ 53)) * (100 * (1 + 1 / 2 ^ 53)) := by
            refine mul_le_mul_of_nonneg_right ?_ (by norm_num)
            exact mul_le_mul_of_nonneg_right hratio (by norm_num)
          have hfin : ((1 : ℚ) * (1 + 1 / 2 ^ 53)) * (100 * (1 + 1 / 2 ^ 53)) < 101 := by
            norm_num
          calc (m2 : ℚ) * pow2 (e1 + e2) = ((m2 : ℚ) * pow2 e2) * pow2 e1 := hstep1
            _ ≤ _ := hstep2
            _ = _ := hstep3
            _ ≤ _ := hstep4
            _ ≤ _ := hstep5
            _ < 101 := hfin
        have hfl := Int.floor_lt.2 (show (m2 : ℚ) * pow2 (e1 + e2) < ((101 : ℤ) : ℚ) by
          push_cast
          exact hval)
        omega

/-- C2 counterexample.  First, `percentage` is computed in binary64
floating point, so it is not `floor(current*100/total)`: at
`current = 29, total = 100` the code returns `28` (because
`(29/100)*100 = 28.999999999999996` in binary64) while the claimed floor
is `29`.  Second, progress states with `percentage > 100` are reachable
through the public callback `update_task_progress` (here
`current = 5, total = 2` gives `250`), so `percentage ≤ 100` does not
hold for every reachable progress state.  (All intermediate values of
the second computation are exactly representable, so the float and
exact results agree there.) -/
theorem C2_counterexample_percentage :
    TaskProgress.percentage ⟨29, 100, ""⟩ = 28 ∧
    ⌊((29 : ℚ) * 100) / 100⌋ = 29 ∧
    (getA (update_task_progress stC2 "t" (some 5) (some 2) none).tasks "t").map
      (fun t => t.progress.percentage) = some 250 ∧
    ¬ (250 : ℤ) ≤ 100 := by
  refine ⟨by decide, ?_, by decide, by decide⟩
  rw [show ((29 : ℚ) * 100) / 100 = (29 : ℚ) by norm_num]
  simp

/-- C2 amended: `percentage` is `0` when `total == 0`; whenever
`0 ≤ current ≤ total` (and `total ≠ 0`) the binary64 computation
satisfies `0 ≤ percentage ≤ 100` unconditionally, by monotonicity of the
rounding error; and it agrees with `floor(current*100/total)` whenever
the two float operations happen to be exact (at `current = 29,
total = 100` they are not, and the code returns `28`, not `29` — see the
counterexample, which also shows the bound fails without
`current ≤ total`). -/
theorem C2_amended_percentage (p : TaskProgress) :
    (p.total = 0 → p.percentage = 0) ∧
    (p.total ≠ 0 → 0 ≤ p.current → p.current ≤ p.total →
      0 ≤ p.percentage ∧ p.percentage ≤ 100) ∧
    (p.total ≠ 0 → 0 ≤ p.current → p.current ≤ p.total →
      ((roundPQ p.current.natAbs p.total.natAbs).1 : ℚ) *
          pow2 (roundPQ p.current.natAbs p.total.natAbs).2 =
        (p.current : ℚ) / (p.total : ℚ) →
      ((roundPQ ((roundPQ p.current.natAbs p.total.natAbs).1 * 100) 1).1 : ℚ) *
          pow2 (roundPQ ((roundPQ p.current.natAbs p.total.natAbs).1 * 100) 1).2 =
        ((roundPQ p.current.natAbs p.total.natAbs).1 : ℚ) * 100 →
      p.percentage = ⌊(p.current : ℚ) * 100 / (p.total : ℚ)⌋) := by
  refine ⟨?_, ?_, ?_⟩
  · intro h
    simp [TaskProgress.percentage, h]
  · intro ht hc hct
    exact percentage_within p ht hc hct
  · intro ht hc hct h1 h2
    have htpos : (0 : ℤ) < p.total := lt_of_le_of_ne (le_trans hc hct) (Ne.symm ht)
    by_cases hc0 : p.current = 0
    · simp [TaskProgress.percentage, ht, hc0]
    · have hnc : decide (p.current < 0) = false := decide_eq_false (not_lt.2 hc)
      have hnt : decide (p.total < 0) = false :=
        decide_eq_false (not_lt.2 (le_of_lt htpos))
      simp only [TaskProgress.percentage, if_neg ht, if_neg hc0, hnc, hnt,
        bne_self_eq_false, Bool.false_eq_true, if_false]
      rw [shiftTrunc_eq_floor]
      congr 1
      calc
        ((roundPQ ((roundPQ p.current.natAbs p.total.natAbs).1 * 100) 1).1 : ℚ) *
            pow2 ((roundPQ p.current.natAbs p.total.natAbs).2 +
              (roundPQ ((roundPQ p.current.natAbs p.total.natAbs).1 * 100) 1).2) =
            (((roundPQ ((roundPQ p.current.natAbs p.total.natAbs).1 * 100) 1).1 : ℚ) *
              pow2 (roundPQ ((roundPQ p.current.natAbs p.total.natAbs).1 * 100) 1).2) *
              pow2 (roundPQ p.current.natAbs p.total.natAbs).2 := by
              rw [pow2, pow2, pow2, zpow_add₀ (two_ne_zero)]
              ring
        _ = (((roundPQ p.current.natAbs p.total.natAbs).1 : ℚ) * 100) *
              pow2 (roundPQ p.current.natAbs p.total.natAbs).2 := by rw [h2]
        _ = (((roundPQ p.current.natAbs p.total.natAbs).1 : ℚ) *
              pow2 (roundPQ p.current.natAbs p.total.natAbs).2) * 100 := by ring
        _ = ((p.current : ℚ) / (p.total : ℚ)) * 100 := by rw [h1]
        _ = (p.current : ℚ) * 100 / (p.total : ℚ) := by ring

/-- Witness for the amended C2 at `current = 1, total = 2`: the bound
holds, both float operations are exact there, and the percentage is the
floor, `50`. -/
theorem C2_amended_percentage_witness :
    (0 ≤ TaskProgress.percentage ⟨1, 2, ""⟩ ∧
      TaskProgress.percentage ⟨1, 2, ""⟩ ≤ 100) ∧
    TaskProgress.percentage ⟨1, 2, ""⟩ =
      ⌊(((1 : ℤ) : ℚ) * 100) / ((2 : ℤ) : ℚ)⌋ :=
  ⟨(C2_amended_percentage ⟨1, 2, ""⟩).2.1 (by decide) (by decide) (by decide),
   (C2_amended_percentage ⟨1, 2, ""⟩).2.2 (by decide) (by decide) (by decide)
    (by
      rw [show roundPQ (1 : ℤ).natAbs (2 : ℤ).natAbs = (4503599627370496, -53) from by decide]
      norm_num [pow2, zpow_neg])
    (by
      rw [show roundPQ (1 : ℤ).natAbs (2 : ℤ).natAbs = (4503599627370496, -53) from by decide]
      rw [show roundPQ (4503599627370496 * 100) 1 = (7036874417766400, 6) from by decide]
      norm_num [pow2])⟩

end GeekTask
